import Mathlib

/-!
# Dogs backend: the dual-source lookup, merge and temperament seeding

A shallow embedding of `src/controllers/index.js` and `src/controllers/dogs.js`.

* JavaScript strings are Lean strings (sequences of Unicode scalar values); the
  only place where the UTF-16 representation is observable in the controllers is
  `id.length`, embedded as `length16`.
* `Number(..)` on a string follows the `StringNumericLiteral` grammar; the value of
  a literal is kept exactly as a signed decimal, rounding to binary64 is not
  modelled.
* `String.prototype.toLowerCase` depends on the Unicode tables of the runtime and is
  a parameter (`Casing`).
* The read handlers return the list of calls they issued on their collaborators
  together with their outcome; the write handlers return their outcome together
  with the store they leave.
* The ORM models of `../db` are not among the sources; the store and its operations
  are modelled from the specification (breed table, temperament table with unique
  name, attribute-less many-to-many join), the store's validation is a parameter.
-/

set_option autoImplicit false

namespace DogsApp

/-! ## JavaScript strings -/

/-- White space and line terminators of ECMAScript, the characters removed by
`String.prototype.trim` and skipped around a numeric literal by `Number`. -/
def isWhiteSpace (c : Char) : Bool :=
  let n := c.toNat
  n == 0x09 || n == 0x0A || n == 0x0B || n == 0x0C || n == 0x0D || n == 0x20 ||
  n == 0xA0 || n == 0x1680 || (0x2000 ≤ n && n ≤ 0x200A) || n == 0x2028 ||
  n == 0x2029 || n == 0x202F || n == 0x205F || n == 0x3000 || n == 0xFEFF

/-- The characters of `s.trim()`. -/
def trimChars (cs : List Char) : List Char :=
  ((cs.dropWhile isWhiteSpace).reverse.dropWhile isWhiteSpace).reverse

/-- The method `s.trim()`. -/
def trim (s : String) : String := ⟨trimChars s.data⟩

/-- The segments of a character sequence around every occurrence of `sep`. -/
def splitOn (sep : Char) : List Char → List (List Char)
  | [] => [[]]
  | c :: cs =>
    if c = sep then [] :: splitOn sep cs
    else
      match splitOn sep cs with
      | [] => [[c]]
      | seg :: segs => (c :: seg) :: segs

/-- The method `s.split(sep)` for a one-character separator. -/
def split (s : String) (sep : Char) : List String :=
  (splitOn sep s.data).map String.mk

/-- The characters of `xs.join(sep)`. -/
def joinChars (sep : List Char) : List (List Char) → List Char
  | [] => []
  | [x] => x
  | x :: y :: rest => x ++ sep ++ joinChars sep (y :: rest)

/-- The method `xs.join(sep)` on an array of strings. -/
def join (xs : List String) (sep : String) : String :=
  ⟨joinChars sep.data (xs.map String.data)⟩

/-- Whether `needle` is a prefix of `hay`. -/
def startsWithChars : List Char → List Char → Bool
  | [], _ => true
  | _ :: _, [] => false
  | n :: ns, h :: hs => n == h && startsWithChars ns hs

/-- Whether `needle` occurs in `hay` at some position. -/
def includesChars (needle : List Char) : List Char → Bool
  | [] => startsWithChars needle []
  | h :: hs => startsWithChars needle (h :: hs) || includesChars needle hs

/-- The method `s.includes(t)`. -/
def includes (s t : String) : Bool := includesChars t.data s.data

/-- The property `s.length`: the number of UTF-16 code units of `s`. -/
def length16 (s : String) : Nat :=
  s.data.foldl (fun n c => n + (if c.toNat < 0x10000 then 1 else 2)) 0

/-- The lower-casing of the runtime (`String.prototype.toLowerCase`). The empty
string has no character to map. -/
structure Casing where
  toLowerCase : String → String
  empty : toLowerCase "" = ""

/-- Lower-casing of the ASCII letters, every other character unchanged. -/
def asciiCasing : Casing where
  toLowerCase := fun s => ⟨s.data.map Char.toLower⟩
  empty := rfl

/-! ## JavaScript numbers -/

/-- A number value: `NaN`, an infinity, or the signed decimal `± mant · 10 ^ exp`
read from a literal. -/
inductive JSNum where
  | nan
  | inf (neg : Bool)
  | dec (neg : Bool) (mant : Nat) (exp : Int)
  deriving DecidableEq, Repr

namespace JSNum

/-- The number `n`. -/
def ofNat (n : Nat) : JSNum := .dec false n 0

/-- Whether the value is `+0` or `-0`. -/
def isZero : JSNum → Bool
  | .dec _ 0 _ => true
  | _ => false

/-- The test `Number.isFinite`. -/
def isFinite : JSNum → Bool
  | .dec _ _ _ => true
  | _ => false

/-- The test `Number.isNaN`. -/
def isNaN : JSNum → Bool
  | .nan => true
  | _ => false

/-- Whether the value is the integer `n`. -/
def eqInt : JSNum → Int → Bool
  | .dec neg m e, n =>
    let signed : Int → Int := fun v => if neg then -v else v
    if 0 ≤ e then signed ((m : Int) * 10 ^ e.toNat) == n
    else m % 10 ^ (-e).toNat == 0 && signed ((m / 10 ^ (-e).toNat : Nat) : Int) == n
  | _, _ => false

end JSNum

/-- The value of a digit in the given radix. -/
def digitValue (radix : Nat) (c : Char) : Option Nat :=
  let n := c.toNat
  let v : Option Nat :=
    if 48 ≤ n && n ≤ 57 then some (n - 48)
    else if 97 ≤ n && n ≤ 102 then some (n - 87)
    else if 65 ≤ n && n ≤ 70 then some (n - 55)
    else none
  match v with
  | some d => if d < radix then some d else none
  | none => none

/-- The value of a non-empty run of digits in the given radix. -/
def readDigits (radix : Nat) : List Char → Option Nat
  | [] => none
  | c :: cs =>
    (c :: cs).foldl
      (fun acc d =>
        match acc, digitValue radix d with
        | some a, some v => some (a * radix + v)
        | _, _ => none)
      (some 0)

/-- The value of a possibly empty run of decimal digits. -/
def decimalValue (ds : List Char) : Nat :=
  ds.foldl (fun a d => a * 10 + (d.toNat - 48)) 0

/-- The production `ExponentPart` when present: nothing left gives exponent 0. -/
def readExponent : List Char → Option Int
  | [] => some 0
  | e :: rest =>
    if e = 'e' ∨ e = 'E' then
      match rest with
      | '+' :: ds => (readDigits 10 ds).map Int.ofNat
      | '-' :: ds => (readDigits 10 ds).map (fun n => - Int.ofNat n)
      | ds => (readDigits 10 ds).map Int.ofNat
    else none

/-- The production `StrUnsignedDecimalLiteral` other than `Infinity`: mantissa and exponent. -/
def readUnsignedDecimal (cs : List Char) : Option (Nat × Int) :=
  let intPart := cs.takeWhile Char.isDigit
  let afterInt := cs.dropWhile Char.isDigit
  let fracPart : List Char :=
    match afterInt with
    | '.' :: r => r.takeWhile Char.isDigit
    | _ => []
  let afterFrac : List Char :=
    match afterInt with
    | '.' :: r => r.dropWhile Char.isDigit
    | _ => afterInt
  if intPart.isEmpty && fracPart.isEmpty then none
  else
    match readExponent afterFrac with
    | some e => some (decimalValue (intPart ++ fracPart), e - fracPart.length)
    | none => none

/-- The production `StrUnsignedDecimalLiteral` with the sign already read. -/
def readSignedDecimal (neg : Bool) (cs : List Char) : JSNum :=
  if cs = "Infinity".data then .inf neg
  else
    match readUnsignedDecimal cs with
    | some (m, e) => .dec neg m e
    | none => .nan

/-- The production `StrNumericLiteral`: a decimal literal with an optional sign, or an unsigned
binary, octal or hexadecimal integer literal. -/
def readNumericLiteral : List Char → JSNum
  | '0' :: p :: ds =>
    if p = 'x' ∨ p = 'X' then
      match readDigits 16 ds with | some n => .dec false n 0 | none => .nan
    else if p = 'o' ∨ p = 'O' then
      match readDigits 8 ds with | some n => .dec false n 0 | none => .nan
    else if p = 'b' ∨ p = 'B' then
      match readDigits 2 ds with | some n => .dec false n 0 | none => .nan
    else readSignedDecimal false ('0' :: p :: ds)
  | '+' :: cs => readSignedDecimal false cs
  | '-' :: cs => readSignedDecimal true cs
  | cs => readSignedDecimal false cs

/-- The conversion `Number(s)` on a string: white space around the literal is skipped, the empty
or blank string is `0`, anything that is not a numeric literal is `NaN`. -/
def Number (s : String) : JSNum :=
  match trimChars s.data with
  | [] => .dec false 0 0
  | cs => readNumericLiteral cs

/-! ## Data model -/

/-- The `height` or `weight` object of a raw entry. -/
structure Measure where
  metric : Option String
  deriving DecidableEq, Repr

/-- The `image` object of a raw entry. -/
structure Image where
  url : Option String
  deriving DecidableEq, Repr

/-- One entry of the external breed listing; `none` is a property that is absent
(`undefined`) or `null`. -/
structure RawEntry where
  id : Int
  name : String
  height : Option Measure
  weight : Option Measure
  life_span : Option String
  image : Option Image
  temperament : Option String
  deriving DecidableEq, Repr

/-- The identifier of a record: a number for external records, a UUID string for
local ones. -/
inductive DogId where
  | num (n : Int)
  | uuid (s : String)
  deriving DecidableEq, Repr

/-- The unified breed record both adapters produce. -/
structure Dog where
  id : DogId
  name : String
  height_min : JSNum
  height_max : JSNum
  weight_min : JSNum
  weight_max : JSNum
  years_life : String
  image : String
  temperaments : String
  deriving DecidableEq, Repr

/-- Modelled from the spec: the Temperament table (`../db` is not among the
sources): identifier and unique name. -/
structure TemperamentRow where
  id : Nat
  name : String
  deriving DecidableEq, Repr

/-- Modelled from the spec: the attribute columns of the breed table (`../db` is
not among the sources), which are also the fields of a create or update payload. -/
structure DogFields where
  name : String
  height_min : JSNum
  height_max : JSNum
  weight_min : JSNum
  weight_max : JSNum
  years_life : String
  image : String
  deriving DecidableEq, Repr

/-- Modelled from the spec: a row of the breed table (`../db` is not among the
sources) together with its rows of the attribute-less many-to-many join table,
kept as the list `temps` of associated temperament ids. -/
structure DogRow where
  id : String
  fields : DogFields
  temps : List Nat
  deriving DecidableEq, Repr

/-- Modelled from the spec: the persistent store (`../db` is not among the
sources): breed rows, temperament rows, and the serial of the temperament table. -/
structure Store where
  dogs : List DogRow
  temperaments : List TemperamentRow
  nextTemperamentId : Nat
  deriving DecidableEq, Repr

/-- A value thrown or passed to `next`. -/
inductive Thrown where
  | error (message : String)
  | typeError (message : String)
  | upstream (message : String)
  | database (message : String)
  deriving DecidableEq, Repr

/-- How the HTTP client settles: with the listing, with a response outside 2xx,
without a response, or failing before the request was sent. -/
inductive AxiosResult where
  | data (entries : List RawEntry)
  | badStatus (status : Nat)
  | noResponse
  | setupError (message : String)
  deriving DecidableEq, Repr

/-- What a read handler runs against: the settlement of the HTTP request, the
local store or the failure of its queries, and which of the two settles first. -/
structure World where
  api : AxiosResult
  db : Except Thrown Store
  apiSettlesFirst : Bool

/-- A call issued on a collaborator. -/
inductive Call where
  | axiosGet
  | dogFindAll
  | dogFindByPk (id : String)
  deriving DecidableEq, Repr

/-- A breed row read with its temperaments included. -/
structure DogView where
  id : String
  fields : DogFields
  temperaments : List TemperamentRow
  deriving DecidableEq, Repr

/-- The payload of a response. -/
inductive Body where
  | text (s : String)
  | dogs (list : List Dog)
  | dog (d : Dog)
  | created (succMsg : String) (newDog : Option DogView)
  | updated (succMsg : String) (updatedDog : Option DogView)
  | failure (error : String)
  deriving DecidableEq, Repr

/-- How a handler ends: `res.status(..).send/json(..)` or `next(error)`. -/
inductive Outcome where
  | response (status : Nat) (body : Body)
  | next (e : Thrown)
  deriving DecidableEq, Repr

/-! ## Local store operations -/

/-- Modelled from the spec: the temperament rows associated with a breed row, in
table order (`include: { model: Temperament }`). -/
def includedTemperaments (st : Store) (d : DogRow) : List TemperamentRow :=
  st.temperaments.filter (fun t => d.temps.contains t.id)

/-- Modelled from the spec: `Dog.findByPk(id)`. -/
def findByPk (st : Store) (id : String) : Option DogRow :=
  st.dogs.find? (fun d => d.id == id)

/-- Modelled from the spec: `Dog.findByPk(id, { include: Temperament })`. -/
def findByPkInclude (st : Store) (id : String) : Option DogView :=
  (findByPk st id).map (fun d => ⟨d.id, d.fields, includedTemperaments st d⟩)

/-- Modelled from the spec: `Temperament.findAll({ where: { id: { [Op.in]: ids } } })`. -/
def findTemperamentsIn (st : Store) (ids : List Nat) : List TemperamentRow :=
  st.temperaments.filter (fun t => ids.contains t.id)

/-- Modelled from the spec: `dog.addTemperaments(rows)`: the join rows not yet
present are added. -/
def addTemperaments (st : Store) (id : String) (rows : List TemperamentRow) : Store :=
  { st with dogs := st.dogs.map (fun d =>
      if d.id == id then
        { d with temps := d.temps ++ (rows.map (·.id)).filter (fun t => !d.temps.contains t) }
      else d) }

/-- Modelled from the spec: `dog.setTemperaments(rows)`: the join rows of the dog
become those of `rows`. -/
def setTemperaments (st : Store) (id : String) (rows : List TemperamentRow) : Store :=
  { st with dogs := st.dogs.map (fun d =>
      if d.id == id then { d with temps := rows.map (·.id) } else d) }

/-- Modelled from the spec: `dog.update(fields)` on the row with the given key. -/
def updateFields (st : Store) (id : String) (f : DogFields) : Store :=
  { st with dogs := st.dogs.map (fun d => if d.id == id then { d with fields := f } else d) }

/-- Modelled from the spec: `Dog.create(fields)` with the generated key `newId`:
a new row without join rows. -/
def insertDog (st : Store) (newId : String) (f : DogFields) : Store :=
  { st with dogs := st.dogs ++ [⟨newId, f, []⟩] }

/-- Modelled from the spec: `Temperament.bulkCreate(names, { ignoreDuplicates })`:
a name already in the table is skipped, every other one gets the next serial. -/
def bulkCreate (st : Store) : List String → Store
  | [] => st
  | n :: ns =>
    if st.temperaments.any (fun t => t.name == n) then bulkCreate st ns
    else
      bulkCreate
        { st with
          temperaments := st.temperaments ++ [⟨st.nextTemperamentId, n⟩]
          nextTemperamentId := st.nextTemperamentId + 1 }
        ns

/-- Modelled from the spec: `Temperament.findAll({ order: [["name", "ASC"]] })`. -/
def findAllByName (st : Store) : List TemperamentRow :=
  st.temperaments.insertionSort (fun a b => a.name ≤ b.name)

/-! ## `controllers/index.js` -/

/-- The image used when an entry's image has no url. -/
def placeholderImage : String :=
  "https://img.freepik.com/premium-photo/cute-confused-little-dog-with-question-marks_488220-4972.jpg?w=2000"

/-- The expression `Number(part || NaN)`, where `part` is an element of a split: absent past the
end of the array, and falsy when it is the empty string. -/
def numberOrNaN (part : Option String) : JSNum :=
  match part with
  | none => .nan
  | some s => if s = "" then .nan else Number s

/-- The expression `value || fallback` on a string property that may be absent. -/
def orDefault (value : Option String) (fallback : String) : String :=
  match value with
  | none => fallback
  | some s => if s = "" then fallback else s

/-- The callback of `dataApi.map` in `getDogsApi`. Reading a property of an absent
object throws a `TypeError`; the properties are read in the order of the literal. -/
def normalize (e : RawEntry) : Except Thrown Dog :=
  match e.height with
  | none => .error (.typeError "Cannot read properties of undefined (reading 'metric')")
  | some height =>
    match height.metric with
    | none => .error (.typeError "Cannot read properties of undefined (reading 'split')")
    | some hm =>
      match e.weight with
      | none => .error (.typeError "Cannot read properties of undefined (reading 'metric')")
      | some weight =>
        match weight.metric with
        | none => .error (.typeError "Cannot read properties of undefined (reading 'split')")
        | some wm =>
          match e.image with
          | none => .error (.typeError "Cannot read properties of undefined (reading 'url')")
          | some image =>
            .ok
              { id := .num e.id
                name := e.name
                height_min := numberOrNaN ((split hm '-')[0]?)
                height_max := numberOrNaN ((split hm '-')[1]?)
                weight_min := numberOrNaN ((split wm '-')[0]?)
                weight_max := numberOrNaN ((split wm '-')[1]?)
                years_life := orDefault e.life_span "Not found"
                image := orDefault image.url placeholderImage
                temperaments := orDefault e.temperament "Not found" }

/-- The call `dataApi.map(..)`: the entries in order, the first exception ends the map. -/
def normalizeAll : List RawEntry → Except Thrown (List Dog)
  | [] => .ok []
  | e :: es =>
    match normalize e with
    | .error err => .error err
    | .ok d =>
      match normalizeAll es with
      | .error err => .error err
      | .ok ds => .ok (d :: ds)

/-- The function `getDogsApi`. The `catch` turns a response outside 2xx and a missing response
into new errors and throws anything else again unchanged; an exception of the map
has neither `response` nor `request`. -/
def getDogsApi (w : World) : List Call × Except Thrown (List Dog) :=
  ([Call.axiosGet],
    match w.api with
    | .data dataApi => normalizeAll dataApi
    | .badStatus status =>
      .error (.error ("API request failed with status " ++ toString status))
    | .noResponse => .error (.error "No response received from API")
    | .setupError message => .error (.upstream message))

/-- The record `getDogsDb` and the local branch of `getAllDogsById` build from a
breed row read with its temperaments. -/
def formatDog (st : Store) (d : DogRow) : Dog :=
  { id := .uuid d.id
    name := d.fields.name
    height_min := d.fields.height_min
    height_max := d.fields.height_max
    weight_min := d.fields.weight_min
    weight_max := d.fields.weight_max
    years_life := d.fields.years_life
    image := d.fields.image
    temperaments := join ((includedTemperaments st d).map (·.name)) ", " }

/-- The function `getDogsDb`. -/
def getDogsDb (w : World) : List Call × Except Thrown (List Dog) :=
  ([Call.dogFindAll],
    match w.db with
    | .ok st => .ok (st.dogs.map (formatDog st))
    | .error err => .error err)

/-- The function `getAllDogs`: both adapters are called, `Promise.all` rejects with the
rejection that comes first. -/
def getAllDogs (w : World) : List Call × Except Thrown (List Dog) :=
  let api := getDogsApi w
  let db := getDogsDb w
  (api.1 ++ db.1,
    match api.2, db.2 with
    | .ok dogsApi, .ok dogsDb => .ok (dogsApi ++ dogsDb)
    | .error e, .ok _ => .error e
    | .ok _, .error e => .error e
    | .error e₁, .error e₂ => .error (if w.apiSettlesFirst then e₁ else e₂))

/-- The expression `[...new Set(xs)]`: every value once, in the order of first occurrence. -/
def uniq : List String → List String
  | [] => []
  | x :: xs => x :: (uniq xs).filter (fun y => y != x)

/-- The call `.filter(Boolean)` on the temperament properties: absent values and the empty
string are dropped. -/
def truthyStrings : List (Option String) → List String
  | [] => []
  | none :: vs => truthyStrings vs
  | some s :: vs => if s = "" then truthyStrings vs else s :: truthyStrings vs

/-- The names `getAllTemperaments` passes to `Temperament.bulkCreate`
(`temperamentsSet`). -/
def temperamentNames (dataApi : List RawEntry) : List String :=
  uniq
    (((split (join (truthyStrings (dataApi.map (·.temperament))) ",") ',').map trim).filter
      (fun t => t.length > 0))

/-- The function `getAllTemperaments`, as the result and the store it leaves. -/
def getAllTemperaments (api : AxiosResult) (st : Store) :
    Except Thrown (List TemperamentRow) × Store :=
  let existingTemperaments := st.temperaments
  if existingTemperaments.length > 0 then (.ok existingTemperaments, st)
  else
    match api with
    | .data dataApi =>
      let st₁ := bulkCreate st (temperamentNames dataApi)
      (.ok (findAllByName st₁), st₁)
    | .badStatus status =>
      (.error (.error ("API request failed with status " ++ toString status)), st)
    | .noResponse => (.error (.error "No response received from API"), st)
    | .setupError message => (.error (.upstream message), st)

/-! ## `controllers/dogs.js` -/

/-- The comparison `recordId === Number(id)`: a string identifier is never equal to a number. -/
def strictEqNumber (recordId : DogId) (x : JSNum) : Bool :=
  match recordId with
  | .num n => x.eqInt n
  | .uuid _ => false

/-- The handler `getAllDogsNamePromise`, with `name` the query parameter (`none` when absent). -/
def getAllDogsNamePromise (cs : Casing) (w : World) (name : Option String) :
    List Call × Outcome :=
  let all := getAllDogs w
  (all.1,
    match all.2 with
    | .error err => .next err
    | .ok allDogs =>
      match name with
      | none => .response 200 (.dogs allDogs)
      | some n =>
        if n ≠ "" then
          let dogsFiltered :=
            allDogs.filter (fun dogs => includes (cs.toLowerCase dogs.name) (cs.toLowerCase n))
          if dogsFiltered.length ≠ 0 then .response 200 (.dogs dogsFiltered)
          else .response 404 (.text ("Dog with name " ++ n ++ " not exist!"))
        else .response 200 (.dogs allDogs))

/-- The handler `getAllDogsById`, with `id` the route parameter (always a string). -/
def getAllDogsById (w : World) (id : String) : List Call × Outcome :=
  if length16 id > 7 then
    ([Call.dogFindByPk id],
      match w.db with
      | .error err => .next err
      | .ok st =>
        match findByPk st id with
        | some dogDb => .response 200 (.dog (formatDog st dogDb))
        | none => .response 404 (.text ("Dog with id " ++ id ++ " not exist in the DB!")))
  else
    let all := getAllDogs w
    (all.1,
      match all.2 with
      | .error err => .next err
      | .ok allDogs =>
        match allDogs.find? (fun e => strictEqNumber e.id (Number id)) with
        | some dogByIdApi => .response 200 (.dog dogByIdApi)
        | none => .response 404 (.text ("Dog with id " ++ id ++ " not exist in the API!")))

/-- The body of a create or update request. -/
structure Payload where
  fields : DogFields
  temperaments : Option (List Nat)
  deriving DecidableEq, Repr

/-- The handler `createDog`, as the outcome and the store it leaves. `accepts` is the store's
validation of the columns and `newId` the key it generates; a rejected insert
throws. -/
def createDog (accepts : Store → DogFields → Bool) (newId : String) (st : Store)
    (body : Payload) : Outcome × Store :=
  if accepts st body.fields && !st.dogs.any (fun d => d.id == newId) then
    let st₁ := insertDog st newId body.fields
    let st₂ :=
      match body.temperaments with
      | none => st₁
      | some temperaments =>
        if temperaments.length > 0 then
          addTemperaments st₁ newId (findTemperamentsIn st₁ temperaments)
        else st₁
    (.response 201 (.created "Dog Created Successfully!" (findByPkInclude st₂ newId)), st₂)
  else (.next (.database "insert rejected"), st)

/-- The handler `updateDog`, as the outcome and the store it leaves. `accepts` is the store's
validation of the columns; a rejected update throws. -/
def updateDog (accepts : Store → DogFields → Bool) (st : Store) (id : String)
    (body : Payload) : Outcome × Store :=
  match findByPk st id with
  | none => (.response 404 (.failure "Dog not found!"), st)
  | some _ =>
    if accepts st body.fields then
      let st₁ := updateFields st id body.fields
      let st₂ :=
        match body.temperaments with
        | none => st₁
        | some temperaments =>
          if temperaments.length > 0 then
            setTemperaments st₁ id (findTemperamentsIn st₁ temperaments)
          else st₁
      (.response 200 (.updated "Dog Updated Successfully!" (findByPkInclude st₂ id)), st₂)
    else (.next (.database "update rejected"), st)

/-! ## Sample data -/

/-- An entry of the listing with every property present. -/
def entryAffenpinscher : RawEntry :=
  { id := 1
    name := "Affenpinscher"
    height := some ⟨some "23 - 29"⟩
    weight := some ⟨some "3 - 6"⟩
    life_span := some "10 - 12 years"
    image := some ⟨some "https://cdn2.thedogapi.com/images/BJa4kxc4X.jpg"⟩
    temperament := some "Stubborn, Curious, Playful" }

/-- An entry whose image has no url and whose life span and temperament are absent. -/
def entryAfghan : RawEntry :=
  { id := 2
    name := "Afghan Hound"
    height := some ⟨some "20 - 25"⟩
    weight := some ⟨some "N/A"⟩
    life_span := none
    image := some ⟨none⟩
    temperament := none }

/-- The columns of a local breed. -/
def fieldsRex : DogFields :=
  { name := "Rex"
    height_min := JSNum.ofNat 30
    height_max := JSNum.ofNat 40
    weight_min := JSNum.ofNat 10
    weight_max := JSNum.ofNat 15
    years_life := "12 years"
    image := "https://example.org/rex.jpg" }

/-- A store with one local breed associated with the temperaments 1 and 2. -/
def sampleStore : Store :=
  { dogs := [⟨"3f2b8c1e-0000-4000-8000-000000000001", fieldsRex, [1, 2]⟩]
    temperaments := [⟨1, "Calm"⟩, ⟨2, "Brave"⟩, ⟨3, "Shy"⟩]
    nextTemperamentId := 4 }

/-- A store without rows. -/
def emptyStore : Store :=
  { dogs := [], temperaments := [], nextTemperamentId := 1 }

/-- Both sources answer. -/
def sampleWorld : World :=
  { api := .data [entryAffenpinscher, entryAfghan], db := .ok sampleStore, apiSettlesFirst := true }

/-- Both sources answer and neither has a record. -/
def emptyWorld : World :=
  { api := .data [], db := .ok emptyStore, apiSettlesFirst := true }

/-- The record `getDogsApi` builds from `entryAffenpinscher`. -/
def dogAffenpinscher : Dog :=
  { id := .num 1
    name := "Affenpinscher"
    height_min := JSNum.ofNat 23
    height_max := JSNum.ofNat 29
    weight_min := JSNum.ofNat 3
    weight_max := JSNum.ofNat 6
    years_life := "10 - 12 years"
    image := "https://cdn2.thedogapi.com/images/BJa4kxc4X.jpg"
    temperaments := "Stubborn, Curious, Playful" }

/-- The record `getDogsApi` builds from `entryAfghan`. -/
def dogAfghan : Dog :=
  { id := .num 2
    name := "Afghan Hound"
    height_min := JSNum.ofNat 20
    height_max := JSNum.ofNat 25
    weight_min := .nan
    weight_max := .nan
    years_life := "Not found"
    image := placeholderImage
    temperaments := "Not found" }

/-- The record `getDogsDb` builds from the breed row of `sampleStore`. -/
def dogRex : Dog :=
  { id := .uuid "3f2b8c1e-0000-4000-8000-000000000001"
    name := "Rex"
    height_min := JSNum.ofNat 30
    height_max := JSNum.ofNat 40
    weight_min := JSNum.ofNat 10
    weight_max := JSNum.ofNat 15
    years_life := "12 years"
    image := "https://example.org/rex.jpg"
    temperaments := "Calm, Brave" }

/-- An entry whose height has nothing but a blank before the dash. -/
def entryBlankHeight : RawEntry :=
  { entryAffenpinscher with height := some ⟨some " - 25"⟩ }

/-- An entry without an `image` property. -/
def entryNoImage : RawEntry :=
  { entryAffenpinscher with image := none }

/-- An entry whose temperament string has blanks around its segments, empty
segments, and a name another entry has as well. -/
def entryAkita : RawEntry :=
  { id := 3
    name := "Akita"
    height := some ⟨some "61 - 71"⟩
    weight := some ⟨some "29 - 52"⟩
    life_span := some "10 - 14 years"
    image := some ⟨some "https://cdn2.thedogapi.com/images/BFRYBufpm.jpg"⟩
    temperament := some " Playful ,, Aloof," }

/-! ## Definitions that follow the words of the specification -/

/-- A text without white space at its start and at its end. -/
def Trimmed (s : String) : Prop :=
  (∀ c, s.data.head? = some c → isWhiteSpace c = false) ∧
  (∀ c, s.data.getLast? = some c → isWhiteSpace c = false)

/-- The specification's words for the seeded names before de-duplication: the
temperament field of every entry that has one, split on the comma, each segment
trimmed, the empty ones discarded. -/
def temperamentSegments (dataApi : List RawEntry) : List String :=
  dataApi.flatMap (fun e =>
    match e.temperament with
    | none => []
    | some s => ((split s ',').map trim).filter (fun t => t ≠ ""))

/-! ## Strings: basic facts -/

theorem startsWithChars_nil (hay : List Char) : startsWithChars [] hay = true := by
  cases hay <;> rfl

theorem includesChars_nil (hay : List Char) : includesChars [] hay = true := by
  cases hay <;> simp [includesChars, startsWithChars]

theorem includes_empty (s : String) : includes s "" = true := by
  simp [includes, includesChars_nil]

/-- What `includes` computes is the infix relation on the characters. -/
theorem startsWithChars_iff (needle hay : List Char) :
    startsWithChars needle hay = true ↔ needle <+: hay := by
  induction needle generalizing hay with
  | nil => simp [startsWithChars_nil]
  | cons n ns ih =>
    cases hay with
    | nil => simp [startsWithChars]
    | cons h hs => simp [startsWithChars, ih, List.cons_prefix_cons]

theorem includesChars_iff (needle hay : List Char) :
    includesChars needle hay = true ↔ needle <:+: hay := by
  induction hay with
  | nil =>
    cases needle <;> simp [includesChars, startsWithChars]
  | cons h hs ih =>
    simp only [includesChars, Bool.or_eq_true, ih, startsWithChars_iff]
    rw [List.infix_cons_iff]

/-! ## The name search -/

theorem getAllDogs_calls (w : World) : (getAllDogs w).1 = [Call.axiosGet, Call.dogFindAll] := rfl

/-- C1: when the supplied name filter is contained, after lower-casing both, in the
name of at least one dog of the merged list, the handler answers 200 with the dogs
of the merged list whose lower-cased name contains the lower-cased filter: the body
is the `filter` of the merged list, a sublist of it (merged-list order), a dog is in
it if and only if it is in the merged list and matches, and a matching dog occurs
in it as often as in the merged list. -/
theorem getAllDogsNamePromise_found (cs : Casing) (w : World) (allDogs : List Dog)
    (name : String) (hall : (getAllDogs w).2 = .ok allDogs)
    (hin : ∃ d ∈ allDogs, includes (cs.toLowerCase d.name) (cs.toLowerCase name) = true) :
    ∃ body, (getAllDogsNamePromise cs w (some name)).2 = .response 200 (.dogs body) ∧
      body = allDogs.filter
        (fun d => includes (cs.toLowerCase d.name) (cs.toLowerCase name)) ∧
      body.Sublist allDogs ∧
      (∀ d, d ∈ body ↔
        d ∈ allDogs ∧ includes (cs.toLowerCase d.name) (cs.toLowerCase name) = true) ∧
      (∀ d, includes (cs.toLowerCase d.name) (cs.toLowerCase name) = true →
        body.count d = allDogs.count d) := by
  obtain ⟨d, hd, hd'⟩ := hin
  refine ⟨_, ?_, rfl, List.filter_sublist _, fun d => List.mem_filter, ?_⟩
  · simp only [getAllDogsNamePromise, hall]
    by_cases hn : name = ""
    · subst hn
      simp [cs.empty, includes_empty]
    · have hne : (allDogs.filter
          (fun d => includes (cs.toLowerCase d.name) (cs.toLowerCase name))).length ≠ 0 := by
        intro h0
        have hmem : d ∈ allDogs.filter
            (fun d => includes (cs.toLowerCase d.name) (cs.toLowerCase name)) :=
          List.mem_filter.mpr ⟨hd, hd'⟩
        rw [List.length_eq_zero] at h0
        rw [h0] at hmem
        cases hmem
      simp [hn, hne]
  · intro x hx
    have hx' : (fun d : Dog => includes (cs.toLowerCase d.name) (cs.toLowerCase name)) x = true :=
      hx
    exact List.count_filter hx'

theorem getAllDogsNamePromise_found_witness :
    (getAllDogs sampleWorld).2 = .ok [dogAffenpinscher, dogAfghan, dogRex] ∧
    (∃ d ∈ [dogAffenpinscher, dogAfghan, dogRex],
      includes (asciiCasing.toLowerCase d.name) (asciiCasing.toLowerCase "AF") = true) ∧
    (getAllDogsNamePromise asciiCasing sampleWorld (some "AF")).2 =
      .response 200 (.dogs [dogAffenpinscher, dogAfghan]) :=
  ⟨rfl, by decide, by
    obtain ⟨body, hres, hbody, _⟩ :=
      getAllDogsNamePromise_found asciiCasing sampleWorld [dogAffenpinscher, dogAfghan, dogRex]
        "AF" rfl (by decide)
    rw [hres, hbody]
    decide⟩

/-- C10, as stated, fails: with the empty filter (`?name=`) and an empty merged
list no dog's name contains the filter, and the handler answers 200 with the empty
list instead of 404. -/
theorem getAllDogsNamePromise_empty_filter_empty_list :
    (getAllDogs emptyWorld).2 = .ok [] ∧
    (∀ d ∈ ([] : List Dog),
      includes (asciiCasing.toLowerCase d.name) (asciiCasing.toLowerCase "") = false) ∧
    (getAllDogsNamePromise asciiCasing emptyWorld (some "")).2 = .response 200 (.dogs []) ∧
    (getAllDogsNamePromise asciiCasing emptyWorld (some "")).2 ≠
      .response 404 (.text ("Dog with name " ++ "" ++ " not exist!")) := by
  refine ⟨rfl, ?_, rfl, ?_⟩
  · intro d hd
    cases hd
  · decide

/-- C10, amended: for a non-empty name filter that is contained, after lower-casing
both, in no dog's name of the merged list, the handler answers 404 with the text
`Dog with name X not exist!`, `X` being the filter as supplied. -/
theorem getAllDogsNamePromise_not_found (cs : Casing) (w : World) (allDogs : List Dog)
    (name : String) (hall : (getAllDogs w).2 = .ok allDogs) (hname : name ≠ "")
    (hout : ∀ d ∈ allDogs, includes (cs.toLowerCase d.name) (cs.toLowerCase name) = false) :
    (getAllDogsNamePromise cs w (some name)).2 =
      .response 404 (.text ("Dog with name " ++ name ++ " not exist!")) := by
  have hnil : allDogs.filter
      (fun d => includes (cs.toLowerCase d.name) (cs.toLowerCase name)) = [] := by
    rw [List.filter_eq_nil_iff]
    intro d hd
    simp [hout d hd]
  simp only [getAllDogsNamePromise, hall]
  simp [hname, hnil]

theorem getAllDogsNamePromise_not_found_witness :
    (getAllDogs sampleWorld).2 = .ok [dogAffenpinscher, dogAfghan, dogRex] ∧
    "Poodle" ≠ "" ∧
    (∀ d ∈ [dogAffenpinscher, dogAfghan, dogRex],
      includes (asciiCasing.toLowerCase d.name) (asciiCasing.toLowerCase "Poodle") = false) ∧
    (getAllDogsNamePromise asciiCasing sampleWorld (some "Poodle")).2 =
      .response 404 (.text "Dog with name Poodle not exist!") :=
  ⟨rfl, by decide, by decide,
    getAllDogsNamePromise_not_found asciiCasing sampleWorld [dogAffenpinscher, dogAfghan, dogRex]
      "Poodle" rfl (by decide) (by decide)⟩

/-! ## The merge -/

/-- C3: when both adapters succeed, `getAllDogs` succeeds with the external list
followed by the local list: its length is the sum of the two lengths, its first
part is the external list and the rest the local list, and every record occurs as
often as in the two lists together (nothing is removed, merged or reordered, equal
records included). -/
theorem getAllDogs_concat (w : World) (dogsApi dogsDb : List Dog)
    (hapi : (getDogsApi w).2 = .ok dogsApi) (hdb : (getDogsDb w).2 = .ok dogsDb) :
    ∃ all, (getAllDogs w).2 = .ok all ∧ all = dogsApi ++ dogsDb ∧
      all.length = dogsApi.length + dogsDb.length ∧
      all.take dogsApi.length = dogsApi ∧ all.drop dogsApi.length = dogsDb ∧
      ∀ d, all.count d = dogsApi.count d + dogsDb.count d := by
  refine ⟨dogsApi ++ dogsDb, ?_, rfl, ?_, ?_, ?_, ?_⟩
  · simp only [getAllDogs, hapi, hdb]
  · simp
  · simp
  · simp
  · intro d
    simp

theorem getAllDogs_concat_witness :
    (getDogsApi sampleWorld).2 = .ok [dogAffenpinscher, dogAfghan] ∧
    (getDogsDb sampleWorld).2 = .ok [dogRex] ∧
    ∃ all, (getAllDogs sampleWorld).2 = .ok all ∧ all = [dogAffenpinscher, dogAfghan] ++ [dogRex] ∧
      all.length = [dogAffenpinscher, dogAfghan].length + [dogRex].length ∧
      all.take [dogAffenpinscher, dogAfghan].length = [dogAffenpinscher, dogAfghan] ∧
      all.drop [dogAffenpinscher, dogAfghan].length = [dogRex] ∧
      ∀ d, all.count d = [dogAffenpinscher, dogAfghan].count d + [dogRex].count d :=
  ⟨rfl, rfl, getAllDogs_concat sampleWorld [dogAffenpinscher, dogAfghan] [dogRex] rfl rfl⟩

/-! ## The lookup by id -/

/-- C2: an id of length at most 7 is looked up in the merged list of `getAllDogs`
only, by `record.id === Number(id)`, and `Dog.findByPk` is not called; an id of
length above 7 is looked up with `Dog.findByPk` only, and neither call of
`getAllDogs` is issued. No run issues both kinds of call. -/
theorem getAllDogsById_dispatch (w : World) (id : String) :
    (length16 id ≤ 7 →
      (getAllDogsById w id).1 = (getAllDogs w).1 ∧
      (∀ key, Call.dogFindByPk key ∉ (getAllDogsById w id).1) ∧
      (getAllDogsById w id).2 =
        match (getAllDogs w).2 with
        | .error err => .next err
        | .ok allDogs =>
          match allDogs.find? (fun e => strictEqNumber e.id (Number id)) with
          | some d => .response 200 (.dog d)
          | none => .response 404 (.text ("Dog with id " ++ id ++ " not exist in the API!"))) ∧
    (7 < length16 id →
      (getAllDogsById w id).1 = [Call.dogFindByPk id] ∧
      (∀ c ∈ (getAllDogs w).1, c ∉ (getAllDogsById w id).1) ∧
      (getAllDogsById w id).2 =
        match w.db with
        | .error err => .next err
        | .ok st =>
          match findByPk st id with
          | some row => .response 200 (.dog (formatDog st row))
          | none => .response 404 (.text ("Dog with id " ++ id ++ " not exist in the DB!"))) ∧
    ¬ ((∃ key, Call.dogFindByPk key ∈ (getAllDogsById w id).1) ∧
        (∃ c ∈ (getAllDogs w).1, c ∈ (getAllDogsById w id).1)) := by
  refine ⟨?_, ?_, ?_⟩
  · intro h
    have h' : ¬ length16 id > 7 := by omega
    simp [getAllDogsById, h', getAllDogs_calls]
  · intro h
    have h' : length16 id > 7 := h
    simp [getAllDogsById, h', getAllDogs_calls]
  · by_cases h : length16 id > 7
    · simp [getAllDogsById, h, getAllDogs_calls]
    · simp [getAllDogsById, h, getAllDogs_calls]

theorem getAllDogsById_dispatch_witness :
    length16 "2" ≤ 7 ∧ 7 < length16 "3f2b8c1e-0000-4000-8000-000000000001" ∧
    getAllDogsById sampleWorld "2" =
      ([Call.axiosGet, Call.dogFindAll], .response 200 (.dog dogAfghan)) ∧
    getAllDogsById sampleWorld "3f2b8c1e-0000-4000-8000-000000000001" =
      ([Call.dogFindByPk "3f2b8c1e-0000-4000-8000-000000000001"], .response 200 (.dog dogRex)) ∧
    (getAllDogsById sampleWorld "2").1 = (getAllDogs sampleWorld).1 ∧
    (getAllDogsById sampleWorld "3f2b8c1e-0000-4000-8000-000000000001").1 =
      [Call.dogFindByPk "3f2b8c1e-0000-4000-8000-000000000001"] :=
  ⟨by decide, by decide, by decide, by decide,
    ((getAllDogsById_dispatch sampleWorld "2").1 (by decide)).1,
    ((getAllDogsById_dispatch sampleWorld "3f2b8c1e-0000-4000-8000-000000000001").2.1
      (by decide)).1⟩

/-! ## The external adapter -/

/-- The record built from an entry that has its `height`, `weight` and `image`
objects. -/
theorem normalize_ok (e : RawEntry) (hm wm : String) (img : Image)
    (hh : e.height = some ⟨some hm⟩) (hw : e.weight = some ⟨some wm⟩)
    (hi : e.image = some img) :
    normalize e = .ok
      { id := .num e.id
        name := e.name
        height_min := numberOrNaN ((split hm '-')[0]?)
        height_max := numberOrNaN ((split hm '-')[1]?)
        weight_min := numberOrNaN ((split wm '-')[0]?)
        weight_max := numberOrNaN ((split wm '-')[1]?)
        years_life := orDefault e.life_span "Not found"
        image := orDefault img.url placeholderImage
        temperaments := orDefault e.temperament "Not found" } := by
  simp only [normalize, hh, hw, hi]

/-- The parts of `metric.split("-")` read by `getDogsApi`: the text before the
first dash, and the text between the first dash and the next one (or the end). -/
theorem normalize_metric (e : RawEntry) (hm wm : String) (img : Image)
    (hh : e.height = some ⟨some hm⟩) (hw : e.weight = some ⟨some wm⟩)
    (hi : e.image = some img) :
    ∃ d, normalize e = .ok d ∧
      d.height_min = numberOrNaN ((split hm '-')[0]?) ∧
      d.height_max = numberOrNaN ((split hm '-')[1]?) ∧
      d.weight_min = numberOrNaN ((split wm '-')[0]?) ∧
      d.weight_max = numberOrNaN ((split wm '-')[1]?) :=
  ⟨_, normalize_ok e hm wm img hh hw hi, rfl, rfl, rfl, rfl⟩

/-- The examples of the specification: `"20 - 25"` gives 20 and 25, `"N/A"` gives
`NaN` twice. -/
theorem normalize_metric_examples :
    normalize entryAfghan = .ok dogAfghan ∧
    dogAfghan.height_min = JSNum.ofNat 20 ∧ dogAfghan.height_max = JSNum.ofNat 25 ∧
    dogAfghan.weight_min.isFinite = false ∧ dogAfghan.weight_max.isFinite = false :=
  ⟨rfl, rfl, rfl, rfl, rfl⟩

/-- A part that is absent or empty reads as `NaN`, not as zero. -/
theorem numberOrNaN_missing :
    numberOrNaN none = .nan ∧ numberOrNaN (some "") = .nan ∧ JSNum.nan.isZero = false :=
  ⟨rfl, rfl, rfl⟩

/-- C4, the code at the failing input: for the metric `" - 25"` the part before the
first dash is a blank, which is no numeric literal, and `height_min` is the number
zero instead of `NaN`. -/
theorem normalize_blank_part_zero :
    (split " - 25" '-')[0]? = some " " ∧
    ∃ d, normalize entryBlankHeight = .ok d ∧
      d.height_min = JSNum.ofNat 0 ∧ d.height_min.isZero = true ∧
      d.height_min.isNaN = false ∧ d.height_max = JSNum.ofNat 25 :=
  ⟨by decide, _, rfl, by decide, by decide, by decide, by decide⟩

/-- The defaults of `getDogsApi` on an entry that has its `height`, `weight` and
`image` objects: a life span, image url or temperament that is absent or empty is
replaced, any other value is kept. -/
theorem normalize_defaults (e : RawEntry) (hm wm : String) (img : Image)
    (hh : e.height = some ⟨some hm⟩) (hw : e.weight = some ⟨some wm⟩)
    (hi : e.image = some img) :
    ∃ d, normalize e = .ok d ∧
      (e.life_span = none ∨ e.life_span = some "" → d.years_life = "Not found") ∧
      (∀ v, e.life_span = some v → v ≠ "" → d.years_life = v) ∧
      (img.url = none ∨ img.url = some "" → d.image = placeholderImage) ∧
      (∀ v, img.url = some v → v ≠ "" → d.image = v) ∧
      (e.temperament = none ∨ e.temperament = some "" → d.temperaments = "Not found") ∧
      (∀ v, e.temperament = some v → v ≠ "" → d.temperaments = v) := by
  refine ⟨_, normalize_ok e hm wm img hh hw hi, ?_, ?_, ?_, ?_, ?_, ?_⟩
  · rintro (h | h) <;> simp [orDefault, h]
  · intro v h hv
    simp [orDefault, h, hv]
  · rintro (h | h) <;> simp [orDefault, h]
  · intro v h hv
    simp [orDefault, h, hv]
  · rintro (h | h) <;> simp [orDefault, h]
  · intro v h hv
    simp [orDefault, h, hv]

/-- C5, the code at the failing input: an entry without an `image` property makes
the map throw, and `getDogsApi` fails instead of yielding a record with the
placeholder image. -/
theorem getDogsApi_entry_without_image :
    entryNoImage.image = none ∧
    normalize entryNoImage =
      .error (.typeError "Cannot read properties of undefined (reading 'url')") ∧
    (getDogsApi { api := .data [entryNoImage], db := .ok emptyStore, apiSettlesFirst := true }).2 =
      .error (.typeError "Cannot read properties of undefined (reading 'url')") ∧
    (getDogsApi
        { api := .data [entryAfghan, entryNoImage], db := .ok emptyStore,
          apiSettlesFirst := true }).2 =
      .error (.typeError "Cannot read properties of undefined (reading 'url')") :=
  ⟨rfl, rfl, rfl, rfl⟩

/-! ## Splitting, joining, trimming and de-duplicating -/

theorem splitOn_ne_nil (sep : Char) (cs : List Char) : splitOn sep cs ≠ [] := by
  induction cs with
  | nil => simp [splitOn]
  | cons c cs ih =>
    unfold splitOn
    split
    · simp
    · split <;> simp

/-- Splitting a text with a separator inside: the segments of the left part, then
those of the right part. -/
theorem splitOn_append_sep (sep : Char) (a b : List Char) :
    splitOn sep (a ++ sep :: b) = splitOn sep a ++ splitOn sep b := by
  induction a with
  | nil => simp [splitOn]
  | cons c a ih =>
    by_cases hc : c = sep
    · simp [splitOn, hc, ih]
    · have hne := splitOn_ne_nil sep a
      cases hs : splitOn sep a with
      | nil => exact absurd hs hne
      | cons seg segs => simp [splitOn, hc, ih, hs]

/-- Splitting what `join` made of a non-empty array with the separator gives the
segments of its elements, in order. -/
theorem splitOn_joinChars (sep : Char) (xs : List (List Char)) (hxs : xs ≠ []) :
    splitOn sep (joinChars [sep] xs) = xs.flatMap (splitOn sep) := by
  induction xs with
  | nil => exact absurd rfl hxs
  | cons x rest ih =>
    cases rest with
    | nil => simp [joinChars]
    | cons y rest =>
      have h := ih (by simp)
      simp only [joinChars, List.append_assoc, List.singleton_append, splitOn_append_sep, h,
        List.flatMap_cons]

theorem split_join (xs : List String) (hxs : xs ≠ []) :
    split (join xs ",") ',' = xs.flatMap (fun s => split s ',') := by
  have h : xs.map String.data ≠ [] := by simpa using hxs
  have hsep : (",").data = [','] := rfl
  simp only [split, join, hsep, splitOn_joinChars ',' _ h, List.flatMap, List.map_map,
    List.map_flatten]
  rfl

theorem mem_uniq (xs : List String) (x : String) : x ∈ uniq xs ↔ x ∈ xs := by
  induction xs with
  | nil => simp [uniq]
  | cons y ys ih =>
    by_cases h : x = y
    · simp [uniq, h]
    · simp [uniq, h, ih, List.mem_filter]

theorem nodup_uniq (xs : List String) : (uniq xs).Nodup := by
  induction xs with
  | nil => simp [uniq]
  | cons y ys ih =>
    simp only [uniq, List.nodup_cons, List.mem_filter]
    refine ⟨?_, ih.filter _⟩
    simp

theorem head?_dropWhile_false (p : Char → Bool) (l : List Char) (c : Char)
    (h : (l.dropWhile p).head? = some c) : p c = false := by
  have := List.head?_dropWhile_not p l
  rw [h] at this
  exact this

theorem trimmed_trim (s : String) : Trimmed (trim s) := by
  constructor
  · intro c hc
    simp only [trim, trimChars, List.head?_reverse] at hc
    obtain ⟨t, ht⟩ := List.dropWhile_suffix (l := (s.data.dropWhile isWhiteSpace).reverse)
      isWhiteSpace
    have hlast : ((s.data.dropWhile isWhiteSpace).reverse).getLast? = some c := by
      rw [← ht, List.getLast?_append, hc]
      rfl
    rw [List.getLast?_reverse] at hlast
    exact head?_dropWhile_false _ _ _ hlast
  · intro c hc
    simp only [trim, trimChars, List.getLast?_reverse] at hc
    exact head?_dropWhile_false _ _ _ hc

theorem trim_empty : trim "" = "" := rfl

/-! ## The temperament names -/

theorem length_pos_iff_ne_empty (t : String) : decide (t.length > 0) = decide (t ≠ "") := by
  cases t with
  | mk data =>
    cases data with
    | nil => rfl
    | cons c cs =>
      have h : (String.mk (c :: cs)) ≠ "" := by
        intro h
        have := congrArg String.data h
        simp at this
      simp [String.length, h]

theorem segments_pipeline (ts : List String) :
    ((split (join ts ",") ',').map trim).filter (fun t => t.length > 0) =
      ts.flatMap (fun s => ((split s ',').map trim).filter (fun t => t ≠ "")) := by
  have hp : (fun t : String => decide (t.length > 0)) = (fun t : String => decide (t ≠ "")) :=
    funext length_pos_iff_ne_empty
  rw [hp]
  cases ts with
  | nil => rfl
  | cons x xs =>
    rw [split_join (x :: xs) (by simp), List.map_flatMap, List.filter_flatMap]

theorem truthy_segments (dataApi : List RawEntry) :
    (truthyStrings (dataApi.map (·.temperament))).flatMap
        (fun s => ((split s ',').map trim).filter (fun t => t ≠ "")) =
      temperamentSegments dataApi := by
  induction dataApi with
  | nil => rfl
  | cons e es ih =>
    cases ht : e.temperament with
    | none =>
      simp only [List.map_cons, ht, truthyStrings, temperamentSegments, List.flatMap_cons,
        List.nil_append]
      exact ih
    | some v =>
      by_cases hv : v = ""
      · subst hv
        have hempty : ((split "" ',').map trim).filter (fun t => t ≠ "") = [] := by decide
        simp only [List.map_cons, ht, truthyStrings, temperamentSegments, List.flatMap_cons,
          hempty, List.nil_append, if_true]
        exact ih
      · simp only [List.map_cons, ht, truthyStrings, temperamentSegments, List.flatMap_cons,
          hv, if_false]
        rw [ih]
        rfl

/-- The names of the code are the de-duplicated segments of the specification. -/
theorem temperamentNames_eq (dataApi : List RawEntry) :
    temperamentNames dataApi = uniq (temperamentSegments dataApi) := by
  rw [temperamentNames, segments_pipeline, truthy_segments]

/-! ## The bulk insert -/

theorem bulkCreate_present (st : Store) (names : List String)
    (h : ∀ n ∈ names, st.temperaments.any (fun t => t.name == n) = true) :
    bulkCreate st names = st := by
  induction names with
  | nil => rfl
  | cons n ns ih =>
    have hn := h n (by simp)
    simp only [bulkCreate, hn, if_true]
    exact ih (fun m hm => h m (by simp [hm]))

theorem bulkCreate_any_mono (st : Store) (names : List String) (n : String)
    (h : st.temperaments.any (fun t => t.name == n) = true) :
    (bulkCreate st names).temperaments.any (fun t => t.name == n) = true := by
  induction names generalizing st with
  | nil => exact h
  | cons m ms ih =>
    unfold bulkCreate
    split
    · exact ih st h
    · apply ih
      simp only [List.any_append, h, Bool.true_or]

theorem bulkCreate_any_mem (st : Store) (names : List String) (n : String) (hn : n ∈ names) :
    (bulkCreate st names).temperaments.any (fun t => t.name == n) = true := by
  induction names generalizing st with
  | nil => cases hn
  | cons m ms ih =>
    unfold bulkCreate
    rcases List.mem_cons.mp hn with rfl | hmem
    · split
      · next hpres => exact bulkCreate_any_mono st ms n hpres
      · apply bulkCreate_any_mono
        simp
    · split
      · exact ih st hmem
      · exact ih _ hmem

/-- Inserting the same names again changes nothing. -/
theorem bulkCreate_idem (st : Store) (names : List String) :
    bulkCreate (bulkCreate st names) names = bulkCreate st names :=
  bulkCreate_present _ _ (fun n hn => bulkCreate_any_mem st names n hn)

/-- Distinct names that are not in the table are all inserted, in order. -/
theorem bulkCreate_names (st : Store) (names : List String) (hnd : names.Nodup)
    (hnew : ∀ n ∈ names, st.temperaments.any (fun t => t.name == n) = false) :
    (bulkCreate st names).temperaments.map (·.name) = st.temperaments.map (·.name) ++ names := by
  induction names generalizing st with
  | nil => simp [bulkCreate]
  | cons n ns ih =>
    have hn := hnew n (by simp)
    obtain ⟨hnotin, hnd'⟩ := List.nodup_cons.mp hnd
    simp only [bulkCreate, hn, Bool.false_eq_true, if_false]
    rw [ih _ hnd']
    · simp
    · intro m hm
      have hm' := hnew m (by simp [hm])
      have hne : n ≠ m := fun h => hnotin (h ▸ hm)
      simp [List.any_append, hm', hne]

/-! ## Seeding the temperaments -/

theorem mem_temperamentSegments (dataApi : List RawEntry) (n : String) :
    n ∈ temperamentSegments dataApi ↔
      ∃ e ∈ dataApi, ∃ s, e.temperament = some s ∧ ∃ seg ∈ split s ',', trim seg = n ∧ n ≠ "" := by
  simp only [temperamentSegments, List.mem_flatMap]
  constructor
  · rintro ⟨e, he, hn⟩
    cases ht : e.temperament with
    | none => simp [ht] at hn
    | some s =>
      simp only [ht, List.mem_filter, List.mem_map, decide_eq_true_eq] at hn
      obtain ⟨⟨seg, hseg, rfl⟩, hne⟩ := hn
      exact ⟨e, he, s, ht, seg, hseg, rfl, hne⟩
  · rintro ⟨e, he, s, ht, seg, hseg, rfl, hne⟩
    refine ⟨e, he, ?_⟩
    simp only [ht, List.mem_filter, List.mem_map, decide_eq_true_eq]
    exact ⟨⟨seg, hseg, rfl⟩, hne⟩

/-- C7: on an empty Temperament table `getAllTemperaments` bulk-inserts the names
`temperamentNames`, and the table then holds exactly these names. A name is in the
list if and only if it is the trimmed, non-empty form of a comma-separated segment
of the temperament string of some entry; no name occurs twice; every name is
non-empty, has no white space at its start or end, and occurs exactly once.
Entries without a temperament contribute no name. -/
theorem getAllTemperaments_seeded_names (dataApi : List RawEntry) (st : Store)
    (hst : st.temperaments = []) :
    (getAllTemperaments (.data dataApi) st).2 = bulkCreate st (temperamentNames dataApi) ∧
    (getAllTemperaments (.data dataApi) st).2.temperaments.map (·.name) =
      temperamentNames dataApi ∧
    (temperamentNames dataApi).Nodup ∧
    (∀ n, n ∈ temperamentNames dataApi ↔
      ∃ e ∈ dataApi, ∃ s, e.temperament = some s ∧
        ∃ seg ∈ split s ',', trim seg = n ∧ n ≠ "") ∧
    (∀ n ∈ temperamentNames dataApi,
      n ≠ "" ∧ Trimmed n ∧ (temperamentNames dataApi).count n = 1) := by
  have hnd : (temperamentNames dataApi).Nodup := by
    rw [temperamentNames_eq]
    exact nodup_uniq _
  have hmem : ∀ n, n ∈ temperamentNames dataApi ↔
      ∃ e ∈ dataApi, ∃ s, e.temperament = some s ∧
        ∃ seg ∈ split s ',', trim seg = n ∧ n ≠ "" := by
    intro n
    rw [temperamentNames_eq, mem_uniq, mem_temperamentSegments]
  have hstore : (getAllTemperaments (.data dataApi) st).2 =
      bulkCreate st (temperamentNames dataApi) := by
    simp [getAllTemperaments, hst]
  refine ⟨hstore, ?_, hnd, hmem, ?_⟩
  · rw [hstore, bulkCreate_names st _ hnd]
    · simp [hst]
    · intro n _
      simp [hst]
  · intro n hn
    obtain ⟨e, _, s, _, seg, _, hseg, hne⟩ := (hmem n).mp hn
    refine ⟨hne, ?_, List.count_eq_one_of_mem hnd hn⟩
    rw [← hseg]
    exact trimmed_trim seg

theorem getAllTemperaments_seeded_names_witness :
    emptyStore.temperaments = [] ∧
    temperamentNames [entryAffenpinscher, entryAfghan, entryAkita] =
      ["Stubborn", "Curious", "Playful", "Aloof"] ∧
    (getAllTemperaments (.data [entryAffenpinscher, entryAfghan, entryAkita])
        emptyStore).2.temperaments.map (·.name) =
      ["Stubborn", "Curious", "Playful", "Aloof"] :=
  ⟨rfl, by decide,
    (getAllTemperaments_seeded_names [entryAffenpinscher, entryAfghan, entryAkita] emptyStore
      rfl).2.1.trans (by decide)⟩

/-- Once the table has a row, the rows are returned as they are and nothing is
inserted, whatever the external source would answer. -/
theorem getAllTemperaments_cached (api : AxiosResult) (st : Store)
    (h : st.temperaments ≠ []) :
    getAllTemperaments api st = (.ok st.temperaments, st) := by
  have hlen : st.temperaments.length > 0 := List.length_pos.mpr h
  simp [getAllTemperaments, hlen]

/-- C6: two calls in a row with the same settlement of the external request. The
second call leaves the store as the first call left it (it inserts no row); a table
without two rows of one name has none after either call; and when the first call
returned rows, the second returns a list that is a rearrangement of the rows stored
after the first call. A request that delivers the listing makes the first call
return rows. -/
theorem getAllTemperaments_idempotent (api : AxiosResult) (st : Store)
    (huniq : (st.temperaments.map (·.name)).Nodup) :
    (getAllTemperaments api (getAllTemperaments api st).2).2 = (getAllTemperaments api st).2 ∧
    ((getAllTemperaments api st).2.temperaments.map (·.name)).Nodup ∧
    ((getAllTemperaments api (getAllTemperaments api st).2).2.temperaments.map (·.name)).Nodup ∧
    (∀ rows₁, (getAllTemperaments api st).1 = .ok rows₁ →
      ∃ rows₂, (getAllTemperaments api (getAllTemperaments api st).2).1 = .ok rows₂ ∧
        rows₂.Perm (getAllTemperaments api st).2.temperaments) ∧
    (∀ dataApi, api = .data dataApi → ∃ rows₁, (getAllTemperaments api st).1 = .ok rows₁) := by
  have hnames : ∀ dataApi, (temperamentNames dataApi).Nodup := fun dataApi => by
    rw [temperamentNames_eq]
    exact nodup_uniq _
  by_cases hlen : st.temperaments.length > 0
  · have h1 : getAllTemperaments api st = (.ok st.temperaments, st) := by
      simp [getAllTemperaments, hlen]
    rw [h1]
    simp only [h1]
    refine ⟨trivial, huniq, huniq, ?_, ?_⟩
    · intro _ _
      exact ⟨_, rfl, List.Perm.refl _⟩
    · intro _ _
      exact ⟨_, rfl⟩
  · have hnil : st.temperaments = [] := by
      cases hst : st.temperaments with
      | nil => rfl
      | cons t ts => simp [hst] at hlen
    cases api with
    | data dataApi =>
      have h1 : getAllTemperaments (.data dataApi) st =
          (.ok (findAllByName (bulkCreate st (temperamentNames dataApi))),
            bulkCreate st (temperamentNames dataApi)) := by
        simp [getAllTemperaments, hlen]
      have hn1 : ((bulkCreate st (temperamentNames dataApi)).temperaments.map (·.name)).Nodup := by
        rw [bulkCreate_names st _ (hnames dataApi) (by intro n _; simp [hnil])]
        simpa [hnil] using hnames dataApi
      have h2 : (getAllTemperaments (.data dataApi) (bulkCreate st (temperamentNames dataApi))).2 =
            bulkCreate st (temperamentNames dataApi) ∧
          ∃ rows₂, (getAllTemperaments (.data dataApi)
              (bulkCreate st (temperamentNames dataApi))).1 = .ok rows₂ ∧
            rows₂.Perm (bulkCreate st (temperamentNames dataApi)).temperaments := by
        by_cases hlen' : (bulkCreate st (temperamentNames dataApi)).temperaments.length > 0
        · simp only [getAllTemperaments, hlen', if_true]
          exact ⟨trivial, _, rfl, List.Perm.refl _⟩
        · simp only [getAllTemperaments, hlen', if_false, bulkCreate_idem]
          exact ⟨trivial, _, rfl, List.perm_insertionSort _ _⟩
      rw [h1]
      simp only [h2.1]
      exact ⟨trivial, hn1, hn1, fun _ _ => h2.2, fun _ _ => ⟨_, rfl⟩⟩
    | badStatus status =>
      simp [getAllTemperaments, hlen, huniq]
    | noResponse =>
      simp [getAllTemperaments, hlen, huniq]
    | setupError message =>
      simp [getAllTemperaments, hlen, huniq]

theorem getAllTemperaments_idempotent_witness :
    (emptyStore.temperaments.map (·.name)).Nodup ∧
    (getAllTemperaments (.data [entryAffenpinscher, entryAfghan, entryAkita]) emptyStore).2 =
      { dogs := []
        temperaments := [⟨1, "Stubborn"⟩, ⟨2, "Curious"⟩, ⟨3, "Playful"⟩, ⟨4, "Aloof"⟩]
        nextTemperamentId := 5 } ∧
    (getAllTemperaments (.data [entryAffenpinscher, entryAfghan, entryAkita])
        (getAllTemperaments (.data [entryAffenpinscher, entryAfghan, entryAkita])
          emptyStore).2).2 =
      (getAllTemperaments (.data [entryAffenpinscher, entryAfghan, entryAkita]) emptyStore).2 :=
  ⟨by decide, by decide,
    (getAllTemperaments_idempotent (.data [entryAffenpinscher, entryAfghan, entryAkita])
      emptyStore (by decide)).1⟩

/-! ## Creating and updating a local breed -/

/-- Reading back the rows whose ids were taken from the table with an `Op.in`
filter gives the rows of that filter. -/
theorem filter_contains_ids (ts : List TemperamentRow) (ids : List Nat) :
    ts.filter (fun t => ((ts.filter (fun u => ids.contains u.id)).map (·.id)).contains t.id) =
      ts.filter (fun t => ids.contains t.id) := by
  apply List.filter_congr
  intro t ht
  rw [Bool.eq_iff_iff]
  simp only [List.contains, List.elem_eq_mem, decide_eq_true_eq, List.mem_map, List.mem_filter]
  constructor
  · rintro ⟨u, ⟨_, hu⟩, hid⟩
    rw [← hid]
    exact hu
  · intro h
    exact ⟨t, ⟨ht, h⟩, rfl⟩

theorem find?_map_id (dogs : List DogRow) (f : DogRow → DogRow) (id : String)
    (hf : ∀ d, (f d).id = d.id) :
    (dogs.map f).find? (fun d => d.id == id) = (dogs.find? (fun d => d.id == id)).map f := by
  rw [List.find?_map]
  have : ((fun d : DogRow => d.id == id) ∘ f) = (fun d : DogRow => d.id == id) := by
    funext d
    simp [hf d]
  rw [this]

theorem findByPk_id (st : Store) (id : String) (row : DogRow) (h : findByPk st id = some row) :
    row.id = id := by
  have := List.find?_some h
  simpa using this

theorem mem_findTemperamentsIn (st : Store) (ids : List Nat) (t : TemperamentRow) :
    t ∈ findTemperamentsIn st ids ↔ t ∈ st.temperaments ∧ t.id ∈ ids := by
  simp [findTemperamentsIn, List.mem_filter]

/-- C8: updating an existing dog with a non-empty list of temperament ids (the
store accepting the columns) answers 200, and the dog read back from the store has
the new columns and, as its temperaments, exactly the rows of the Temperament table
whose id is in the list: a temperament is associated afterwards if and only if the
list names it, so a previously associated one that is not in the list is gone. -/
theorem updateDog_replaces_temperaments (accepts : Store → DogFields → Bool) (st : Store)
    (id : String) (row : DogRow) (fields : DogFields) (ids : List Nat)
    (hrow : findByPk st id = some row) (hids : ids ≠ [])
    (hacc : accepts st fields = true) :
    (updateDog accepts st id ⟨fields, some ids⟩).1 =
      .response 200
        (.updated "Dog Updated Successfully!" (some ⟨id, fields, findTemperamentsIn st ids⟩)) ∧
    findByPkInclude (updateDog accepts st id ⟨fields, some ids⟩).2 id =
      some ⟨id, fields, findTemperamentsIn st ids⟩ ∧
    (∀ t, t ∈ findTemperamentsIn st ids ↔ t ∈ st.temperaments ∧ t.id ∈ ids) ∧
    (∀ t ∈ includedTemperaments st row, t.id ∉ ids → t ∉ findTemperamentsIn st ids) := by
  have hlen : ids.length > 0 := List.length_pos.mpr hids
  have hid := findByPk_id st id row hrow
  have hfind : findByPkInclude
      (setTemperaments (updateFields st id fields) id
        (findTemperamentsIn (updateFields st id fields) ids)) id =
      some ⟨id, fields, findTemperamentsIn st ids⟩ := by
    unfold findByPk at hrow
    simp only [findByPkInclude, findByPk, setTemperaments, updateFields, List.map_map]
    rw [find?_map_id _ _ id (by intro d; by_cases h : d.id = id <;> simp [h]), hrow]
    simp only [Option.map_some', Function.comp, hid, beq_self_eq_true, if_true,
      includedTemperaments, findTemperamentsIn]
    rw [filter_contains_ids]
  refine ⟨?_, ?_, mem_findTemperamentsIn st ids, ?_⟩
  · simp only [updateDog, hrow, hacc, if_true, hlen]
    rw [hfind]
  · simp only [updateDog, hrow, hacc, if_true, hlen]
    exact hfind
  · intro t _ hnot hmem
    exact hnot ((mem_findTemperamentsIn st ids t).mp hmem).2

theorem updateDog_replaces_temperaments_witness :
    findByPkInclude sampleStore "3f2b8c1e-0000-4000-8000-000000000001" =
      some ⟨"3f2b8c1e-0000-4000-8000-000000000001", fieldsRex, [⟨1, "Calm"⟩, ⟨2, "Brave"⟩]⟩ ∧
    [3] ≠ ([] : List Nat) ∧
    findByPkInclude
        (updateDog (fun _ _ => true) sampleStore "3f2b8c1e-0000-4000-8000-000000000001"
          ⟨fieldsRex, some [3]⟩).2 "3f2b8c1e-0000-4000-8000-000000000001" =
      some ⟨"3f2b8c1e-0000-4000-8000-000000000001", fieldsRex, [⟨3, "Shy"⟩]⟩ :=
  ⟨by decide, by decide,
    (updateDog_replaces_temperaments (fun _ _ => true) sampleStore
      "3f2b8c1e-0000-4000-8000-000000000001"
      ⟨"3f2b8c1e-0000-4000-8000-000000000001", fieldsRex, [1, 2]⟩ fieldsRex [3]
      (by decide) (by decide) rfl).2.1.trans (by decide)⟩

theorem map_ite_of_ne (dogs : List DogRow) (id : String) (g : DogRow → DogRow)
    (h : ∀ d ∈ dogs, d.id ≠ id) :
    dogs.map (fun d => if d.id == id then g d else d) = dogs := by
  induction dogs with
  | nil => rfl
  | cons d ds ih =>
    have hd : d.id ≠ id := h d (by simp)
    have hds := ih (fun x hx => h x (by simp [hx]))
    simp only [List.map_cons, hds]
    simp [hd]

/-- The new row is the one `findByPk` finds when no earlier row has its key. -/
theorem findByPkInclude_appended (st : Store) (newId : String) (fields : DogFields)
    (temps : List Nat) (hnew : ∀ d ∈ st.dogs, d.id ≠ newId) :
    findByPkInclude { st with dogs := st.dogs ++ [⟨newId, fields, temps⟩] } newId =
      some ⟨newId, fields, st.temperaments.filter (fun t => temps.contains t.id)⟩ := by
  have hnone : st.dogs.find? (fun d => d.id == newId) = none := by
    rw [List.find?_eq_none]
    intro d hd
    simpa using hnew d hd
  simp [findByPkInclude, findByPk, List.find?_append, hnone, includedTemperaments]

/-- C9: creating a dog (the store accepting the columns, the generated key being
new) answers 201 with the new dog read back from the store, and leaves the store
with one more breed row, the earlier rows and the Temperament table unchanged.
With the empty list of temperament ids the new row has no join row and the dog read
back has no temperament. With a non-empty list the new row is joined to exactly the
rows of the Temperament table whose id is in the list, and the dog read back from
the store has exactly these temperaments, for `[1, 2]` the rows with id 1 or 2; and
`[1, 2]` and `[2, 1]` give the same response and the same store. -/
theorem createDog_temperaments (accepts : Store → DogFields → Bool) (newId : String)
    (st : Store) (fields : DogFields) (hacc : accepts st fields = true)
    (hnew : ∀ d ∈ st.dogs, d.id ≠ newId) :
    createDog accepts newId st ⟨fields, some []⟩ =
      (.response 201 (.created "Dog Created Successfully!" (some ⟨newId, fields, []⟩)),
        { st with dogs := st.dogs ++ [⟨newId, fields, []⟩] }) ∧
    findByPkInclude (createDog accepts newId st ⟨fields, some []⟩).2 newId =
      some ⟨newId, fields, []⟩ ∧
    (∀ ids, ids ≠ [] →
      createDog accepts newId st ⟨fields, some ids⟩ =
        (.response 201
            (.created "Dog Created Successfully!"
              (some ⟨newId, fields, findTemperamentsIn st ids⟩)),
          { st with
            dogs := st.dogs ++ [⟨newId, fields, (findTemperamentsIn st ids).map (·.id)⟩] }) ∧
      findByPkInclude (createDog accepts newId st ⟨fields, some ids⟩).2 newId =
        some ⟨newId, fields, findTemperamentsIn st ids⟩) ∧
    (∀ t, t ∈ findTemperamentsIn st [1, 2] ↔ t ∈ st.temperaments ∧ (t.id = 1 ∨ t.id = 2)) ∧
    createDog accepts newId st ⟨fields, some [1, 2]⟩ =
      createDog accepts newId st ⟨fields, some [2, 1]⟩ := by
  have hany : st.dogs.any (fun d => d.id == newId) = false := by
    rw [List.any_eq_false]
    intro d hd
    simpa using hnew d hd
  have hswap : findTemperamentsIn (insertDog st newId fields) [1, 2] =
      findTemperamentsIn (insertDog st newId fields) [2, 1] := by
    simp only [findTemperamentsIn]
    apply List.filter_congr
    intro t _
    rw [Bool.eq_iff_iff]
    simp only [List.contains, List.elem_eq_mem, decide_eq_true_eq, List.mem_cons,
      List.mem_singleton, List.not_mem_nil, or_false]
    exact Or.comm
  have hread0 : findByPkInclude { st with dogs := st.dogs ++ [⟨newId, fields, []⟩] } newId =
      some ⟨newId, fields, []⟩ := by
    rw [findByPkInclude_appended st newId fields [] hnew]
    simp
  have hempty : createDog accepts newId st ⟨fields, some []⟩ =
      (.response 201 (.created "Dog Created Successfully!" (some ⟨newId, fields, []⟩)),
        { st with dogs := st.dogs ++ [⟨newId, fields, []⟩] }) := by
    simp only [createDog, hacc, hany, Bool.not_false, Bool.and_self, if_true, insertDog,
      List.length_nil, gt_iff_lt, Nat.lt_irrefl, if_false, hread0]
  have hsome : ∀ ids, ids ≠ [] →
      createDog accepts newId st ⟨fields, some ids⟩ =
        (.response 201
            (.created "Dog Created Successfully!"
              (some ⟨newId, fields, findTemperamentsIn st ids⟩)),
          { st with
            dogs := st.dogs ++ [⟨newId, fields, (findTemperamentsIn st ids).map (·.id)⟩] }) := by
    intro ids hids
    have hlen : ids.length > 0 := List.length_pos.mpr hids
    have hstore : addTemperaments (insertDog st newId fields) newId
        (findTemperamentsIn (insertDog st newId fields) ids) =
        { st with
          dogs := st.dogs ++ [⟨newId, fields, (findTemperamentsIn st ids).map (·.id)⟩] } := by
      simp only [addTemperaments, insertDog, findTemperamentsIn, List.map_append,
        map_ite_of_ne st.dogs newId _ hnew, List.map_cons, List.map_nil, beq_self_eq_true,
        if_true, List.nil_append, List.contains_nil, Bool.not_false, List.filter_true]
    have hread : findByPkInclude
        { st with
          dogs := st.dogs ++ [⟨newId, fields, (findTemperamentsIn st ids).map (·.id)⟩] } newId =
        some ⟨newId, fields, findTemperamentsIn st ids⟩ := by
      rw [findByPkInclude_appended st newId fields _ hnew]
      simp only [findTemperamentsIn]
      rw [filter_contains_ids]
    simp only [createDog, hacc, hany, Bool.not_false, Bool.and_self, if_true, hlen, hstore,
      hread]
  refine ⟨hempty, ?_, ?_, ?_, ?_⟩
  · rw [hempty]
    exact hread0
  · intro ids hids
    refine ⟨hsome ids hids, ?_⟩
    rw [hsome ids hids, findByPkInclude_appended st newId fields _ hnew]
    simp only [findTemperamentsIn]
    rw [filter_contains_ids]
  · intro t
    rw [mem_findTemperamentsIn]
    simp
  · simp only [createDog, hacc, hany, Bool.not_false, Bool.and_self, if_true]
    rw [hswap]
    rfl

theorem createDog_temperaments_witness :
    (∀ d ∈ sampleStore.dogs, d.id ≠ "7a1d0c52-0000-4000-8000-000000000002") ∧
    createDog (fun _ _ => true) "7a1d0c52-0000-4000-8000-000000000002" sampleStore
        ⟨fieldsRex, some []⟩ =
      (.response 201
          (.created "Dog Created Successfully!"
            (some ⟨"7a1d0c52-0000-4000-8000-000000000002", fieldsRex, []⟩)),
        { dogs :=
            [⟨"3f2b8c1e-0000-4000-8000-000000000001", fieldsRex, [1, 2]⟩,
              ⟨"7a1d0c52-0000-4000-8000-000000000002", fieldsRex, []⟩]
          temperaments := [⟨1, "Calm"⟩, ⟨2, "Brave"⟩, ⟨3, "Shy"⟩]
          nextTemperamentId := 4 }) ∧
    createDog (fun _ _ => true) "7a1d0c52-0000-4000-8000-000000000002" sampleStore
        ⟨fieldsRex, some [2, 1]⟩ =
      (.response 201
          (.created "Dog Created Successfully!"
            (some ⟨"7a1d0c52-0000-4000-8000-000000000002", fieldsRex,
              [⟨1, "Calm"⟩, ⟨2, "Brave"⟩]⟩)),
        { dogs :=
            [⟨"3f2b8c1e-0000-4000-8000-000000000001", fieldsRex, [1, 2]⟩,
              ⟨"7a1d0c52-0000-4000-8000-000000000002", fieldsRex, [1, 2]⟩]
          temperaments := [⟨1, "Calm"⟩, ⟨2, "Brave"⟩, ⟨3, "Shy"⟩]
          nextTemperamentId := 4 }) ∧
    findByPkInclude
        (createDog (fun _ _ => true) "7a1d0c52-0000-4000-8000-000000000002" sampleStore
          ⟨fieldsRex, some [2, 1]⟩).2 "7a1d0c52-0000-4000-8000-000000000002" =
      some ⟨"7a1d0c52-0000-4000-8000-000000000002", fieldsRex, [⟨1, "Calm"⟩, ⟨2, "Brave"⟩]⟩ :=
  ⟨by decide,
    (createDog_temperaments (fun _ _ => true) "7a1d0c52-0000-4000-8000-000000000002" sampleStore
      fieldsRex rfl (by decide)).1.trans (by decide),
    ((createDog_temperaments (fun _ _ => true) "7a1d0c52-0000-4000-8000-000000000002"
      sampleStore fieldsRex rfl (by decide)).2.2.1 [2, 1] (by decide)).1.trans (by decide),
    ((createDog_temperaments (fun _ _ => true) "7a1d0c52-0000-4000-8000-000000000002"
      sampleStore fieldsRex rfl (by decide)).2.2.1 [2, 1] (by decide)).2.trans (by decide)⟩

end DogsApp
